import Mathlib

/-!
Verification of the cis_client pagination and credential-cache subsystems.

The definitions below are shallow embeddings of the Rust source:
* `src/sync/batch.rs` — the synchronous `ProfileIter` state machine,
* `src/batch.rs` — the asynchronous `AsyncProfileIter` stream,
* `src/auth.rs` / `src/error.rs` — the token fetch pipeline and `BearerBearer`,
* `src/client.rs` / `src/sync/client.rs` — `get_batch` URL construction.

Remote fetching is abstracted as a pure function
`Option NextPage → Except E Batch` (the fetchers in both test modules are
pure and deterministic, as are our embeddings).  Each iterator step also
returns the list of cursors it handed to the fetcher, so that theorems can
speak about how many fetches were issued and with which cursors.
-/

namespace CisClient

/-- Structure `NextPage` from `src/sync/batch.rs` / `src/batch.rs`: the opaque
pagination cursor `{ id: String }`. -/
structure NextPage where
  id : String
  deriving DecidableEq, Repr

/-- Structure `Batch` from `src/sync/batch.rs`: `items: Option<Vec<Profile>>`,
`next_page: Option<NextPage>`. -/
structure SyncBatch (P : Type) where
  items : Option (List P)
  next_page : Option NextPage
  deriving DecidableEq, Repr

/-- Enum `ProfileIterState` from `src/sync/batch.rs`. -/
inductive SyncIterState
  | Uninitalized
  | Inflight
  | Done
  | Error
  deriving DecidableEq, Repr

/-- Errors produced by the sync iterator: either an error returned by the
fetcher (`get_batch`) or the `ProfileIterError::InvalidState` value from the
unreachable branch of `next`. -/
inductive IterError (E : Type)
  | client (e : E)
  | invalidState
  deriving DecidableEq, Repr

/-- Structure `ProfileIter` from `src/sync/batch.rs` (the `cis_client` and `filter`
fields are closed over by the fetcher function). -/
structure ProfileIter (P : Type) where
  state : SyncIterState
  current_batch : Option (SyncBatch P)
  deriving DecidableEq, Repr

/-- Constructor `ProfileIter::new`. -/
def ProfileIter.new {P : Type} : ProfileIter P :=
  ⟨SyncIterState.Uninitalized, none⟩

/-- Result of one `next()` call: the yielded item (as the Rust
`Option<Result<Vec<Profile>, Error>>`), the updated iterator, and the list of
cursors passed to `get_batch` during this call. -/
abbrev SyncStep (P E : Type) :=
  Option (Except (IterError E) (List P)) × ProfileIter P × List (Option NextPage)

/-- Method `<ProfileIter as Iterator>::next` from `src/sync/batch.rs`, with a fuel
parameter bounding the internal `self.next()` recursion (the Rust recursion
is unbounded only along a chain of item-less pages; on fuel exhaustion we
stop with no item and no further fetch).  `take()` semantics on
`batch.items` / `batch.next_page` are made explicit. -/
def ProfileIter.next {P E : Type} (f : Option NextPage → Except E (SyncBatch P)) :
    Nat → ProfileIter P → SyncStep P E
  | fuel, it =>
    match it.state with
    | .Done => (none, it, [])
    | .Error => (none, it, [])
    | .Uninitalized =>
      match f none with
      | .ok new_batch =>
        let it1 : ProfileIter P := ⟨.Inflight, some new_batch⟩
        match fuel with
        | 0 => (none, it1, [none])
        | fuel' + 1 =>
          let r := ProfileIter.next f fuel' it1
          (r.1, r.2.1, none :: r.2.2)
      | .error e => (some (.error (.client e)), ⟨.Error, it.current_batch⟩, [none])
    | .Inflight =>
      match it.current_batch with
      | some batch =>
        match batch.items with
        | some profiles =>
          (some (.ok profiles), ⟨.Inflight, some ⟨none, batch.next_page⟩⟩, [])
        | none =>
          match batch.next_page with
          | some np =>
            match f (some np) with
            | .ok new_batch =>
              let it1 : ProfileIter P := ⟨.Inflight, some new_batch⟩
              match fuel with
              | 0 => (none, it1, [some np])
              | fuel' + 1 =>
                let r := ProfileIter.next f fuel' it1
                (r.1, r.2.1, some np :: r.2.2)
            | .error e =>
              (some (.error (.client e)), ⟨.Error, some ⟨none, none⟩⟩, [some np])
          | none => (none, ⟨.Done, some ⟨none, none⟩⟩, [])
      | none => (some (.error .invalidState), ⟨.Error, none⟩, [])

/-- A run of `n` successive `next()` calls: the list of yielded values, the
final iterator, and the concatenated fetch log. -/
def runNexts {P E : Type} (f : Option NextPage → Except E (SyncBatch P)) (fuel : Nat) :
    Nat → ProfileIter P →
      List (Option (Except (IterError E) (List P))) × ProfileIter P × List (Option NextPage)
  | 0, it => ([], it, [])
  | n + 1, it =>
    let r := ProfileIter.next f fuel it
    let rest := runNexts f fuel n r.2.1
    (r.1 :: rest.1, rest.2.1, r.2.2 ++ rest.2.2)

/-- Type `Profile` stands in for `cis_profile::schema::Profile`; the tests only
use `Profile::default()`. -/
inductive Profile
  | default
  deriving DecidableEq, Repr

/-- A concrete fetch-error value standing in for `failure::Error` in the
test doubles. -/
inductive FetchErr
  | network
  deriving DecidableEq, Repr

/-- Decimal parsing of a cursor id, modelling `str::parse::<usize>()` as used
by the test fakers (`n.id.parse().unwrap()`).  Returns `none` on the empty
string or any non-digit character. -/
def parseDecimal (s : String) : Option Nat :=
  match s.data with
  | [] => none
  | cs => go cs 0
where go : List Char → Nat → Option Nat
  | [], acc => some acc
  | c :: cs, acc =>
    if '0' ≤ c ∧ c ≤ '9' then go cs (acc * 10 + (c.toNat - '0'.toNat)) else none

/-- Fetcher `CisClientFaker::get_batch` from the tests in `src/sync/batch.rs`:
one `Profile::default()` per page, decrementing string cursor; `count = 0`
with no cursor yields the empty batch `{ items: None, next_page: None }`. -/
def fakerGetBatch (count : Nat) (pagination_token : Option NextPage) :
    Except FetchErr (SyncBatch Profile) :=
  if pagination_token = none ∧ count = 0 then
    .ok ⟨none, none⟩
  else
    let left : Nat :=
      match pagination_token with
      | some n => (parseDecimal n.id).getD 0
      | none => count
    .ok ⟨some [Profile.default],
         if left > 1 then some ⟨Nat.repr (left - 1)⟩ else none⟩

/-- Structure `Batch` from `src/batch.rs` (async): `items: Vec<Profile>`,
`next_page: Option<NextPage>`. -/
structure AsyncBatch (P : Type) where
  items : List P
  next_page : Option NextPage
  deriving DecidableEq, Repr

/-- Enum `ProfileIterState` from `src/batch.rs` (async): note there is no
`Error`/`Failed` variant. -/
inductive AsyncIterState
  | Uninitalized
  | Inflight
  | Done
  deriving DecidableEq, Repr

/-- Structure `AsyncProfileIter` from `src/batch.rs`: the `state` RwLock and the
`next` cursor Mutex (the `cis_client` and `filter` fields are closed over by
the fetcher function). -/
structure AsyncProfileIter where
  state : AsyncIterState
  next : Option NextPage
  deriving DecidableEq, Repr

/-- Constructor `AsyncProfileIter::new`. -/
def AsyncProfileIter.new : AsyncProfileIter :=
  ⟨AsyncIterState.Uninitalized, none⟩

/-- Method `<AsyncProfileIter as Stream>::poll_next` from `src/batch.rs`,
specialised to a fetcher whose future resolves on its first poll (as the
test faker's does; `poll_next` constructs a fresh `get_batch` future on
every call and polls it once).  Every poll is therefore `Poll::Ready`, and
we return its payload `Option<Vec<Profile>>` directly.  A fetch error is
logged and mapped to `None` by the `.map` closure; the `next` cursor and
the `Inflight` state are left unchanged in that case. -/
def AsyncProfileIter.poll_next {P E : Type}
    (f : Option NextPage → Except E (AsyncBatch P)) (it : AsyncProfileIter) :
    Option (List P) × AsyncProfileIter × List (Option NextPage) :=
  match it.state with
  | .Done => (none, it, [])
  | .Uninitalized =>
    let it1 : AsyncProfileIter := ⟨.Inflight, it.next⟩
    match f none with
    | .ok batch =>
      match batch.next_page.isNone && batch.items.isEmpty with
      | true => (none, it1, [none])
      | false => (some batch.items, ⟨.Inflight, batch.next_page⟩, [none])
    | .error _ => (none, it1, [none])
  | .Inflight =>
    match it.next with
    | none => (none, ⟨.Done, it.next⟩, [])
    | some np =>
      match f (some np) with
      | .ok batch => (some batch.items, ⟨.Inflight, batch.next_page⟩, [some np])
      | .error _ => (none, it, [some np])

/-- A run of `n` successive `poll_next` calls: the list of yielded values
(`none` = `Poll::Ready(None)`, end of stream), the final stream state, and
the concatenated fetch log. -/
def asyncRun {P E : Type} (f : Option NextPage → Except E (AsyncBatch P)) :
    Nat → AsyncProfileIter →
      List (Option (List P)) × AsyncProfileIter × List (Option NextPage)
  | 0, it => ([], it, [])
  | n + 1, it =>
    let r := AsyncProfileIter.poll_next f it
    let rest := asyncRun f n r.2.1
    (r.1 :: rest.1, rest.2.1, r.2.2 ++ rest.2.2)

/-- The async test faker `CisClientFaker::get_batch` from `src/batch.rs`:
same cursor chain as the sync faker, with `items` a plain `Vec`. -/
def asyncFakerGetBatch (count : Nat) (pagination_token : Option NextPage) :
    Except FetchErr (AsyncBatch Profile) :=
  if pagination_token = none ∧ count = 0 then
    .ok ⟨[], none⟩
  else
    let left : Nat :=
      match pagination_token with
      | some n => (parseDecimal n.id).getD 0
      | none => count
    .ok ⟨[Profile.default],
         if left > 1 then some ⟨Nat.repr (left - 1)⟩ else none⟩

/-- A three-page listing whose second page (cursor `"2"`) fails: the first
fetch returns one profile and cursor `"2"`, the fetch at `"2"` fails.
Used to examine error handling in both iterators. -/
def failSecondPage (c : Option NextPage) : Except FetchErr (SyncBatch Profile) :=
  match c with
  | none => .ok ⟨some [Profile.default], some ⟨"2"⟩⟩
  | some _ => .error FetchErr.network

/-- The same three-page-second-fails listing for the async batch shape. -/
def asyncFailSecondPage (c : Option NextPage) :
    Except FetchErr (AsyncBatch Profile) :=
  match c with
  | none => .ok ⟨[Profile.default], some ⟨"2"⟩⟩
  | some _ => .error FetchErr.network

/-! ### Credential cache and token fetch (`src/auth.rs`, `src/error.rs`) -/

/-- Structure `BearerBearer` from `src/auth.rs`: the bearer token string and its
expiry timestamp (timestamps modelled as `Int`, seconds-since-epoch order
preserved). -/
structure BearerBearer where
  bearer_token_str : String
  exp : Int
  deriving DecidableEq, Repr

/-- Method `valid` of `impl Expiry for BearerBearer`, the body of which is
the comparison of `*self.exp` against `Utc::now()`, with the current time
passed explicitly. -/
def BearerBearer.valid (b : BearerBearer) (now : Int) : Bool :=
  decide (b.exp > now)

/-- A JSON value, as far as `serde_json::Value` is used by
`get_raw_access_token` (`j["access_token"].as_str()`). -/
inductive Json
  | null
  | bool (b : Bool)
  | num (n : Int)
  | str (s : String)
  | arr (xs : List Json)
  | obj (fields : List (String × Json))

/-- Indexing a la `serde_json`, `j[key]`: field lookup on an object, `Null` for a
missing key or a non-object. -/
def Json.index (j : Json) (key : String) : Json :=
  match j with
  | .obj fields => (fields.lookup key).getD .null
  | _ => .null

/-- Method `Value::as_str`: `Some` only for a JSON string. -/
def Json.asStr : Json → Option String
  | .str s => some s
  | _ => none

/-- The registered claims of the decoded token payload, as far as
`get_expiration` reads them: `payload.registered.expiry : Option<Timestamp>`. -/
structure ClaimsSet where
  expiry : Option Int

/-- The errors of the token fetch pipeline, mirroring
`TokenError::{NoToken, NoExpiry}` from `src/error.rs`; `DecodeError` stands
for the `biscuit` error propagated by `c.unverified_payload()?`.  (Transport
errors happen before the pipeline modelled here and are out of its input.) -/
inductive TokenFetchError (D : Type)
  | NoToken
  | NoExpiry
  | DecodeError (e : D)
  deriving DecidableEq, Repr

/-- Function `get_raw_access_token` from `src/auth.rs`, past the network exchange:
given the parsed JSON response body, yield the `access_token` string field
or fail with `TokenError::NoToken`. -/
def get_raw_access_token {D : Type} (resp : Json) :
    Except (TokenFetchError D) String :=
  match (resp.index ("access_token")).asStr with
  | some s => .ok s
  | none => .error .NoToken

/-- Function `get_expiration` from `src/auth.rs`: decode the token's unverified
payload (`decode` stands for `jws::Compact::unverified_payload`), then
require the registered `expiry` claim, failing with `TokenError::NoExpiry`
when it is absent. -/
def get_expiration {D : Type} (decode : String → Except D ClaimsSet)
    (token : String) : Except (TokenFetchError D) Int :=
  match decode token with
  | .error e => .error (.DecodeError e)
  | .ok payload =>
    match payload.expiry with
    | some exp => .ok exp
    | none => .error .NoExpiry

/-- The body of `Provider::<BearerBearer>::update` for `Auth0`
(`src/auth.rs`), before its errors are collapsed into
`ExpiryGetError::UpdateFailed`: fetch the raw access token, derive its
expiry, and build the `BearerBearer`. -/
def fetchCredential {D : Type} (decode : String → Except D ClaimsSet)
    (resp : Json) : Except (TokenFetchError D) BearerBearer := do
  let token ← get_raw_access_token resp
  let exp ← get_expiration decode token
  return ⟨token, exp⟩

/-- Modelled from the spec: the `shared_expiry_get::RemoteStore` expiring
cache (§4.1/§5 of the spec) is an external crate, not under `src/`.  Cache
state per the spec's data model: `Empty`, `Refreshing` (with the number of
callers joined to the in-flight refresh), or `Valid`. -/
inductive CacheState (C : Type)
  | Empty
  | Refreshing (waiters : Nat)
  | Valid (v : C)

/-- Modelled from the spec: an `ExpiringCache` instance together with a
count of underlying fetch invocations. -/
structure ExpiringCache (C : Type) where
  state : CacheState C
  fetchCount : Nat

/-- Modelled from the spec: one `get()` call arriving while the cached
value (if any) is not valid.  On `Empty` the caller becomes the refresher
and starts the single fetch; on `Refreshing` it joins the in-flight refresh
without fetching; on `Valid` it is served without fetching. -/
def ExpiringCache.arrive {C : Type} : ExpiringCache C → ExpiringCache C
  | ⟨.Empty, n⟩ => ⟨.Refreshing 1, n + 1⟩
  | ⟨.Refreshing w, n⟩ => ⟨.Refreshing (w + 1), n⟩
  | ⟨.Valid v, n⟩ => ⟨.Valid v, n⟩

/-- Modelled from the spec: `k` successive `get()` arrivals. -/
def ExpiringCache.arriveN {C : Type} : Nat → ExpiringCache C → ExpiringCache C
  | 0, s => s
  | k + 1, s => ExpiringCache.arriveN k s.arrive

/-- Modelled from the spec: the in-flight refresh resolves with `res`; every
joined caller receives that same outcome, and the state becomes `Valid` on
success or reverts to `Empty` on failure. -/
def ExpiringCache.resolve {C E : Type} (res : Except E C) :
    ExpiringCache C → ExpiringCache C × List (Except E C)
  | ⟨.Refreshing w, n⟩ =>
    (⟨match res with | .ok v => .Valid v | .error _ => .Empty, n⟩,
     List.replicate w res)
  | s => (s, [])

/-! ### `get_batch` URL construction (`src/client.rs`, `src/sync/client.rs`) -/

/-- A URL as far as `get_batch` manipulates one: an untouched base (scheme,
host, path) and an optional query string. -/
structure Url where
  base : String
  query : Option String
  deriving DecidableEq, Repr

/-- Method `url.query_pairs_mut().append_pair(k, v)`: appends `k=v` to the query
(the form-urlencoding of `v` is elided; the values used below need none). -/
def Url.appendPair (u : Url) (k v : String) : Url :=
  let pair := k ++ "=" ++ v
  { u with query := some (match u.query with
      | none => pair
      | some q => q ++ "&" ++ pair) }

/-- Method `url.set_query(q)`: replaces the entire query string. -/
def Url.setQuery (u : Url) (q : Option String) : Url :=
  { u with query := q }

/-- Serialization `serde_json::to_string` of a `NextPage` cursor: `{"id":"<id>"}` (JSON
string escaping is elided; the ids used below need none). -/
def NextPage.toJsonString (np : NextPage) : String :=
  "\x7b\"id\":\"" ++ np.id ++ "\"\x7d"

/-- Modelled from the spec: `crate::encoding::USERINFO_ENCODE_SET` is not
under `src/`; this is the `percent_encoding` crate's USERINFO encode set
(controls, non-ASCII, and `space " # < > ? \x60 \x7b \x7d / : ; = @ [ \ ] ^ |`). -/
def userinfoEncoded (c : Char) : Bool :=
  c.toNat < 0x20 || c.toNat > 0x7e ||
    c ∈ [' ', '"', '#', '<', '>', '?', '\x60', '\x7b', '\x7d',
         '/', ':', ';', '=', '@', '[', '\\', ']', '^', '|']

/-- One uppercase hex digit. -/
def hexDigit (n : Nat) : Char :=
  if n < 10 then Char.ofNat ('0'.toNat + n)
  else Char.ofNat ('A'.toNat + (n - 10))

/-- Encoding `utf8_percent_encode(s, USERINFO_ENCODE_SET).to_string()` for ASCII
input (the cursor JSON below is ASCII). -/
def percentEncode (s : String) : String :=
  ⟨s.data.flatMap fun c =>
    if userinfoEncoded c then
      ['%', hexDigit (c.toNat / 16), hexDigit (c.toNat % 16)]
    else [c]⟩

/-- The URL construction of `CisClient::get_batch` (identical in
`src/client.rs` lines 186–201 and `src/sync/client.rs` lines 149–158):
start from the users endpoint; if a display filter is supplied, append the
`filterDisplay` query pair; if a cursor is supplied, `set_query` the URL's
query to `nextPage=<percent-encoded JSON cursor>`. -/
def get_batch_url (endpoint : Url) (filter : Option String)
    (next_page : Option NextPage) : Url :=
  let url := endpoint
  let url := match filter with
    | some df => url.appendPair ("filterDisplay") df
    | none => url
  match next_page with
  | some npt =>
    url.setQuery (some ("nextPage=" ++ percentEncode npt.toJsonString))
  | none => url

/-! ### Cursor-freshness bookkeeping

`cursorChain after allowed log` says: the fetch log `log` is consistent with
the discipline "the next fetch, if any, must use exactly the cursor
`allowed` (where `allowed = none` means no further fetch may happen), and
after a fetch at `c` the new obligation is `after c`".  The two `after`
policies below are read off the two iterators. -/

/-- The cursor the sync iterator may fetch with after a fetch at `c`:
on success, exactly the returned batch's `next_page` (none = no further
fetch); on failure, no further fetch (the iterator moves to `Error`). -/
def afterSync {P E : Type} (f : Option NextPage → Except E (SyncBatch P))
    (c : Option NextPage) : Option (Option NextPage) :=
  match f c with
  | .ok b => b.next_page.map some
  | .error _ => none

/-- The cursor the async stream may fetch with after a fetch at `c`:
on success, exactly the returned batch's `next_page`; on failure, the same
cursor `c` again (the `next` mutex is left unchanged). -/
def afterAsync {P E : Type} (f : Option NextPage → Except E (AsyncBatch P))
    (c : Option NextPage) : Option (Option NextPage) :=
  match f c with
  | .ok b => b.next_page.map some
  | .error _ => some c

/-- The fetch log respects the cursor discipline starting from obligation
`allowed`. -/
def cursorChain (after : Option NextPage → Option (Option NextPage)) :
    Option (Option NextPage) → List (Option NextPage) → Prop
  | _, [] => True
  | none, _ :: _ => False
  | some c, x :: rest => x = c ∧ cursorChain after (after c) rest

/-- The obligation remaining after consuming a fetch log. -/
def chainConsume (after : Option NextPage → Option (Option NextPage)) :
    Option (Option NextPage) → List (Option NextPage) → Option (Option NextPage)
  | a, [] => a
  | _, x :: rest => chainConsume after (after x) rest

/-- State invariant tying the sync iterator to its cursor obligation: in
`Inflight` the stored batch's `next_page` is exactly the pending
obligation; fresh iterators owe a cursorless first fetch. -/
def SyncInv {P : Type} (it : ProfileIter P)
    (allowed : Option (Option NextPage)) : Prop :=
  match it.state with
  | .Uninitalized => allowed = some none
  | .Inflight => ∃ cb, it.current_batch = some cb ∧ allowed = cb.next_page.map some
  | .Done => True
  | .Error => True

/-- State invariant for the async stream: in `Inflight` with a stored
cursor, that cursor is exactly the pending obligation. -/
def AsyncInv (it : AsyncProfileIter)
    (allowed : Option (Option NextPage)) : Prop :=
  match it.state with
  | .Uninitalized => allowed = some none ∧ it.next = none
  | .Inflight => ∀ np, it.next = some np → allowed = some (some np)
  | .Done => True

/-- The sync iterator state never reachable by the `InvalidState` branch:
whenever the state is `Inflight`, `current_batch` is populated. -/
def GoodIter {P : Type} (it : ProfileIter P) : Prop :=
  it.state = SyncIterState.Inflight → it.current_batch.isSome

/-- A fetcher whose initial (cursorless) fetch reports the sync "nothing at
all" batch `{ items: None, next_page: None }`; pages behind a cursor are
arbitrary. -/
def emptyFirstSync {P E : Type} (rest : NextPage → Except E (SyncBatch P)) :
    Option NextPage → Except E (SyncBatch P)
  | none => .ok ⟨none, none⟩
  | some np => rest np

/-- A fetcher whose initial (cursorless) fetch returns the async empty batch
`{ items: vec![], next_page: None }`; pages behind a cursor are arbitrary. -/
def emptyFirstAsync {P E : Type} (rest : NextPage → Except E (AsyncBatch P)) :
    Option NextPage → Except E (AsyncBatch P)
  | none => .ok ⟨[], none⟩
  | some np => rest np

/-- A sync fetcher whose initial fetch returns a present-but-empty item
list (`items: Some(vec![])`) and no cursor — e.g. the real
`get_batch` against a server responding `Items: []`. -/
def emptySomeSync : Option NextPage → Except FetchErr (SyncBatch Profile) :=
  fun _ => .ok ⟨some [], none⟩

/-- A sync fetcher `f` serves, starting from cursor `c`, the chain of
successful pages `ps` — each entry is the page's item list and the cursor
that page hands back — and then fails with `e` when fetched at the last
handed-back cursor.  This is the shape of an arbitrary paged listing whose
fetch fails after `ps.length` successful pages. -/
def servesThenFails {P E : Type} (f : Option NextPage → Except E (SyncBatch P))
    (e : E) : Option NextPage → List (List P × NextPage) → Prop
  | c, [] => f c = .error e
  | c, (items, nc) :: rest =>
    f c = .ok ⟨some items, some nc⟩ ∧ servesThenFails f e (some nc) rest

/-- The async analogue of `servesThenFails`, for the async batch shape. -/
def asyncServesThenFails {P E : Type}
    (g : Option NextPage → Except E (AsyncBatch P)) (e : E) :
    Option NextPage → List (List P × NextPage) → Prop
  | c, [] => g c = .error e
  | c, (items, nc) :: rest =>
    g c = .ok ⟨items, some nc⟩ ∧ asyncServesThenFails g e (some nc) rest

end CisClient

namespace CisClient

end CisClient

namespace CisClient

theorem next_done {P E : Type} (f : Option NextPage → Except E (SyncBatch P))
    (fuel : Nat) (cb : Option (SyncBatch P)) :
    ProfileIter.next f fuel ⟨SyncIterState.Done, cb⟩ =
      (none, ⟨SyncIterState.Done, cb⟩, []) := by
  cases fuel <;> rfl

theorem next_error_state {P E : Type} (f : Option NextPage → Except E (SyncBatch P))
    (fuel : Nat) (cb : Option (SyncBatch P)) :
    ProfileIter.next f fuel ⟨SyncIterState.Error, cb⟩ =
      (none, ⟨SyncIterState.Error, cb⟩, []) := by
  cases fuel <;> rfl

theorem next_uninit {P E : Type} (f : Option NextPage → Except E (SyncBatch P))
    (fuel : Nat) (cb : Option (SyncBatch P)) :
    ProfileIter.next f (fuel + 1) ⟨SyncIterState.Uninitalized, cb⟩ =
      match f none with
      | .ok nb =>
        ((ProfileIter.next f fuel ⟨SyncIterState.Inflight, some nb⟩).1,
         (ProfileIter.next f fuel ⟨SyncIterState.Inflight, some nb⟩).2.1,
         none :: (ProfileIter.next f fuel ⟨SyncIterState.Inflight, some nb⟩).2.2)
      | .error e =>
        (some (.error (.client e)), ⟨SyncIterState.Error, cb⟩, [none]) := by
  rw [ProfileIter.next.eq_def]

theorem next_uninit_zero {P E : Type} (f : Option NextPage → Except E (SyncBatch P))
    (cb : Option (SyncBatch P)) :
    ProfileIter.next f 0 ⟨SyncIterState.Uninitalized, cb⟩ =
      match f none with
      | .ok nb => (none, ⟨SyncIterState.Inflight, some nb⟩, [none])
      | .error e =>
        (some (.error (.client e)), ⟨SyncIterState.Error, cb⟩, [none]) := by
  rw [ProfileIter.next.eq_def]

theorem next_inflight {P E : Type} (f : Option NextPage → Except E (SyncBatch P))
    (fuel : Nat) (b : SyncBatch P) :
    ProfileIter.next f (fuel + 1) ⟨SyncIterState.Inflight, some b⟩ =
      match b.items with
      | some profiles =>
        (some (.ok profiles), ⟨SyncIterState.Inflight, some ⟨none, b.next_page⟩⟩, [])
      | none =>
        match b.next_page with
        | some np =>
          match f (some np) with
          | .ok nb =>
            ((ProfileIter.next f fuel ⟨SyncIterState.Inflight, some nb⟩).1,
             (ProfileIter.next f fuel ⟨SyncIterState.Inflight, some nb⟩).2.1,
             some np :: (ProfileIter.next f fuel ⟨SyncIterState.Inflight, some nb⟩).2.2)
          | .error e =>
            (some (.error (.client e)), ⟨SyncIterState.Error, some ⟨none, none⟩⟩,
             [some np])
        | none => (none, ⟨SyncIterState.Done, some ⟨none, none⟩⟩, []) := by
  rw [ProfileIter.next.eq_def]

theorem next_inflight_zero {P E : Type} (f : Option NextPage → Except E (SyncBatch P))
    (b : SyncBatch P) :
    ProfileIter.next f 0 ⟨SyncIterState.Inflight, some b⟩ =
      match b.items with
      | some profiles =>
        (some (.ok profiles), ⟨SyncIterState.Inflight, some ⟨none, b.next_page⟩⟩, [])
      | none =>
        match b.next_page with
        | some np =>
          match f (some np) with
          | .ok nb => (none, ⟨SyncIterState.Inflight, some nb⟩, [some np])
          | .error e =>
            (some (.error (.client e)), ⟨SyncIterState.Error, some ⟨none, none⟩⟩,
             [some np])
        | none => (none, ⟨SyncIterState.Done, some ⟨none, none⟩⟩, []) := by
  rw [ProfileIter.next.eq_def]

theorem next_inflight_nobatch {P E : Type}
    (f : Option NextPage → Except E (SyncBatch P)) (fuel : Nat) :
    ProfileIter.next f fuel ⟨SyncIterState.Inflight, none⟩ =
      (some (.error .invalidState), ⟨SyncIterState.Error, none⟩, []) := by
  cases fuel <;> rfl

theorem next_syncInv_chain {P E : Type} (f : Option NextPage → Except E (SyncBatch P)) :
    ∀ (fuel : Nat) (it : ProfileIter P) (allowed : Option (Option NextPage)),
      SyncInv it allowed →
      cursorChain (afterSync f) allowed (ProfileIter.next f fuel it).2.2 ∧
      SyncInv (ProfileIter.next f fuel it).2.1
        (chainConsume (afterSync f) allowed (ProfileIter.next f fuel it).2.2) := by
  intro fuel
  induction fuel with
  | zero =>
    intro it allowed h
    obtain ⟨st, cb⟩ := it
    cases st with
    | Done => simp [next_done, cursorChain, chainConsume, SyncInv]
    | Error => simp [next_error_state, cursorChain, chainConsume, SyncInv]
    | Uninitalized =>
      have ha : allowed = some none := h
      subst ha
      cases hf : f none with
      | ok nb =>
        refine ⟨?_, ?_⟩
        · simp [next_uninit_zero, hf, cursorChain]
        · simp [next_uninit_zero, hf, chainConsume, SyncInv, afterSync]
      | error e =>
        refine ⟨?_, ?_⟩
        · simp [next_uninit_zero, hf, cursorChain]
        · simp [next_uninit_zero, hf, chainConsume, SyncInv]
    | Inflight =>
      obtain ⟨cb', hcb, ha⟩ := h
      subst ha
      cases hcb
      cases hi : cb'.items with
      | some profiles =>
        refine ⟨by simp [next_inflight_zero, hi, cursorChain], ?_⟩
        simp [next_inflight_zero, hi, chainConsume, SyncInv]
      | none =>
        cases hn : cb'.next_page with
        | some np =>
          cases hf : f (some np) with
          | ok nb =>
            refine ⟨?_, ?_⟩
            · simp [next_inflight_zero, hi, hn, hf, cursorChain]
            · simp [next_inflight_zero, hi, hn, hf, chainConsume, SyncInv, afterSync]
          | error e =>
            refine ⟨?_, ?_⟩
            · simp [next_inflight_zero, hi, hn, hf, cursorChain]
            · simp [next_inflight_zero, hi, hn, hf, chainConsume, SyncInv]
        | none =>
          refine ⟨by simp [next_inflight_zero, hi, hn, cursorChain], ?_⟩
          simp [next_inflight_zero, hi, hn, chainConsume, SyncInv]
  | succ fuel ih =>
    intro it allowed h
    obtain ⟨st, cb⟩ := it
    cases st with
    | Done => simp [next_done, cursorChain, chainConsume, SyncInv]
    | Error => simp [next_error_state, cursorChain, chainConsume, SyncInv]
    | Uninitalized =>
      have ha : allowed = some none := h
      subst ha
      cases hf : f none with
      | ok nb =>
        have hinv : SyncInv (⟨SyncIterState.Inflight, some nb⟩ : ProfileIter P)
            (afterSync f none) := ⟨nb, rfl, by simp [afterSync, hf]⟩
        have hr := ih ⟨SyncIterState.Inflight, some nb⟩ (afterSync f none) hinv
        refine ⟨?_, ?_⟩
        · simp only [next_uninit, hf, cursorChain]
          exact ⟨trivial, hr.1⟩
        · simp only [next_uninit, hf, chainConsume]
          exact hr.2
      | error e =>
        refine ⟨?_, ?_⟩
        · simp [next_uninit, hf, cursorChain]
        · simp [next_uninit, hf, chainConsume, SyncInv]
    | Inflight =>
      obtain ⟨cb', hcb, ha⟩ := h
      subst ha
      cases hcb
      cases hi : cb'.items with
      | some profiles =>
        refine ⟨by simp [next_inflight, hi, cursorChain], ?_⟩
        simp [next_inflight, hi, chainConsume, SyncInv]
      | none =>
        cases hn : cb'.next_page with
        | some np =>
          cases hf : f (some np) with
          | ok nb =>
            have hinv : SyncInv (⟨SyncIterState.Inflight, some nb⟩ : ProfileIter P)
                (afterSync f (some np)) := ⟨nb, rfl, by simp [afterSync, hf]⟩
            have hr := ih ⟨SyncIterState.Inflight, some nb⟩ (afterSync f (some np)) hinv
            refine ⟨?_, ?_⟩
            · simp only [next_inflight, hi, hn, hf, cursorChain]
              exact ⟨trivial, hr.1⟩
            · simp only [next_inflight, hi, hn, hf, chainConsume]
              exact hr.2
          | error e =>
            refine ⟨?_, ?_⟩
            · simp [next_inflight, hi, hn, hf, cursorChain]
            · simp [next_inflight, hi, hn, hf, chainConsume, SyncInv]
        | none =>
          refine ⟨by simp [next_inflight, hi, hn, cursorChain], ?_⟩
          simp [next_inflight, hi, hn, chainConsume, SyncInv]

end CisClient

namespace CisClient

theorem chainConsume_append (after : Option NextPage → Option (Option NextPage)) :
    ∀ (l1 : List (Option NextPage)) (a : Option (Option NextPage))
      (l2 : List (Option NextPage)),
      chainConsume after a (l1 ++ l2) =
        chainConsume after (chainConsume after a l1) l2 := by
  intro l1
  induction l1 with
  | nil => intro a l2; rfl
  | cons x rest ih =>
    intro a l2
    simpa [chainConsume] using ih (after x) l2

theorem cursorChain_append (after : Option NextPage → Option (Option NextPage)) :
    ∀ (l1 : List (Option NextPage)) (a : Option (Option NextPage))
      (l2 : List (Option NextPage)),
      cursorChain after a l1 → cursorChain after (chainConsume after a l1) l2 →
      cursorChain after a (l1 ++ l2) := by
  intro l1
  induction l1 with
  | nil => intro a l2 _ h2; simpa [chainConsume] using h2
  | cons x rest ih =>
    intro a l2 h1 h2
    cases a with
    | none => exact absurd h1 (by simp [cursorChain])
    | some c =>
      obtain ⟨hx, hrest⟩ := h1
      subst hx
      exact ⟨rfl, ih (after x) l2 hrest (by simpa [chainConsume] using h2)⟩

theorem runNexts_zero {P E : Type} (f : Option NextPage → Except E (SyncBatch P))
    (fuel : Nat) (it : ProfileIter P) :
    runNexts f fuel 0 it = ([], it, []) := rfl

theorem runNexts_succ {P E : Type} (f : Option NextPage → Except E (SyncBatch P))
    (fuel n : Nat) (it : ProfileIter P) :
    runNexts f fuel (n + 1) it =
      ((ProfileIter.next f fuel it).1 ::
         (runNexts f fuel n (ProfileIter.next f fuel it).2.1).1,
       (runNexts f fuel n (ProfileIter.next f fuel it).2.1).2.1,
       (ProfileIter.next f fuel it).2.2 ++
         (runNexts f fuel n (ProfileIter.next f fuel it).2.1).2.2) := rfl

theorem runNexts_syncInv_chain {P E : Type}
    (f : Option NextPage → Except E (SyncBatch P)) (fuel : Nat) :
    ∀ (n : Nat) (it : ProfileIter P) (allowed : Option (Option NextPage)),
      SyncInv it allowed →
      cursorChain (afterSync f) allowed (runNexts f fuel n it).2.2 ∧
      SyncInv (runNexts f fuel n it).2.1
        (chainConsume (afterSync f) allowed (runNexts f fuel n it).2.2) := by
  intro n
  induction n with
  | zero =>
    intro it allowed h
    refine ⟨?_, ?_⟩
    · simp [runNexts_zero, cursorChain]
    · simpa [runNexts_zero, chainConsume] using h
  | succ n ih =>
    intro it allowed h
    have h1 := next_syncInv_chain f fuel it allowed h
    have h2 := ih (ProfileIter.next f fuel it).2.1
      (chainConsume (afterSync f) allowed (ProfileIter.next f fuel it).2.2) h1.2
    rw [runNexts_succ]
    refine ⟨cursorChain_append _ _ _ _ h1.1 h2.1, ?_⟩
    rw [chainConsume_append]
    exact h2.2

theorem poll_next_asyncInv_chain {P E : Type}
    (f : Option NextPage → Except E (AsyncBatch P)) (it : AsyncProfileIter)
    (allowed : Option (Option NextPage)) (h : AsyncInv it allowed) :
    cursorChain (afterAsync f) allowed (AsyncProfileIter.poll_next f it).2.2 ∧
    AsyncInv (AsyncProfileIter.poll_next f it).2.1
      (chainConsume (afterAsync f) allowed (AsyncProfileIter.poll_next f it).2.2) := by
  obtain ⟨st, nx⟩ := it
  cases st with
  | Done =>
    refine ⟨?_, ?_⟩ <;>
      simp [AsyncProfileIter.poll_next, cursorChain, chainConsume, AsyncInv]
  | Uninitalized =>
    obtain ⟨ha, hn⟩ := h
    subst ha
    subst hn
    cases hf : f none with
    | ok b =>
      cases hb : (b.next_page.isNone && b.items.isEmpty) with
      | true =>
        refine ⟨?_, ?_⟩
        · simp [AsyncProfileIter.poll_next, hf, hb, cursorChain]
        · simp only [AsyncProfileIter.poll_next, hf, hb, chainConsume]
          intro np hnp
          exact absurd hnp (by simp)
      | false =>
        refine ⟨?_, ?_⟩
        · simp [AsyncProfileIter.poll_next, hf, hb, cursorChain]
        · simp only [AsyncProfileIter.poll_next, hf, hb, chainConsume]
          intro np hnp
          have hb2 : b.next_page = some np := hnp
          simp [afterAsync, hf, hb2]
    | error e =>
      refine ⟨?_, ?_⟩
      · simp [AsyncProfileIter.poll_next, hf, cursorChain]
      · simp only [AsyncProfileIter.poll_next, hf, chainConsume]
        intro np hnp
        exact absurd hnp (by simp)
  | Inflight =>
    cases nx with
    | none =>
      refine ⟨?_, ?_⟩
      · simp [AsyncProfileIter.poll_next, cursorChain]
      · simp [AsyncProfileIter.poll_next, chainConsume, AsyncInv]
    | some np =>
      have ha : allowed = some (some np) := h np rfl
      subst ha
      cases hf : f (some np) with
      | ok b =>
        refine ⟨?_, ?_⟩
        · simp [AsyncProfileIter.poll_next, hf, cursorChain]
        · simp only [AsyncProfileIter.poll_next, hf, chainConsume]
          intro np2 hnp2
          have hb2 : b.next_page = some np2 := hnp2
          simp [afterAsync, hf, hb2]
      | error e =>
        refine ⟨?_, ?_⟩
        · simp [AsyncProfileIter.poll_next, hf, cursorChain]
        · simp only [AsyncProfileIter.poll_next, hf, chainConsume]
          intro np2 hnp2
          have hb2 : some np = some np2 := hnp2
          cases hb2
          simp [afterAsync, hf]

theorem asyncRun_zero {P E : Type} (f : Option NextPage → Except E (AsyncBatch P))
    (it : AsyncProfileIter) : asyncRun f 0 it = ([], it, []) := rfl

theorem asyncRun_succ {P E : Type} (f : Option NextPage → Except E (AsyncBatch P))
    (n : Nat) (it : AsyncProfileIter) :
    asyncRun f (n + 1) it =
      ((AsyncProfileIter.poll_next f it).1 ::
         (asyncRun f n (AsyncProfileIter.poll_next f it).2.1).1,
       (asyncRun f n (AsyncProfileIter.poll_next f it).2.1).2.1,
       (AsyncProfileIter.poll_next f it).2.2 ++
         (asyncRun f n (AsyncProfileIter.poll_next f it).2.1).2.2) := rfl

theorem asyncRun_asyncInv_chain {P E : Type}
    (f : Option NextPage → Except E (AsyncBatch P)) :
    ∀ (n : Nat) (it : AsyncProfileIter) (allowed : Option (Option NextPage)),
      AsyncInv it allowed →
      cursorChain (afterAsync f) allowed (asyncRun f n it).2.2 ∧
      AsyncInv (asyncRun f n it).2.1
        (chainConsume (afterAsync f) allowed (asyncRun f n it).2.2) := by
  intro n
  induction n with
  | zero =>
    intro it allowed h
    refine ⟨?_, ?_⟩
    · simp [asyncRun_zero, cursorChain]
    · simpa [asyncRun_zero, chainConsume] using h
  | succ n ih =>
    intro it allowed h
    have h1 := poll_next_asyncInv_chain f it allowed h
    have h2 := ih (AsyncProfileIter.poll_next f it).2.1
      (chainConsume (afterAsync f) allowed (AsyncProfileIter.poll_next f it).2.2) h1.2
    rw [asyncRun_succ]
    refine ⟨cursorChain_append _ _ _ _ h1.1 h2.1, ?_⟩
    rw [chainConsume_append]
    exact h2.2

end CisClient

namespace CisClient

theorem next_goodIter {P E : Type} (f : Option NextPage → Except E (SyncBatch P)) :
    ∀ (fuel : Nat) (it : ProfileIter P), GoodIter it →
      (ProfileIter.next f fuel it).1 ≠ some (Except.error IterError.invalidState) ∧
      GoodIter (ProfileIter.next f fuel it).2.1 := by
  intro fuel
  induction fuel with
  | zero =>
    intro it h
    obtain ⟨st, cb⟩ := it
    cases st with
    | Done => simp [next_done, GoodIter]
    | Error => simp [next_error_state, GoodIter]
    | Uninitalized =>
      cases hf : f none with
      | ok nb => simp [next_uninit_zero, hf, GoodIter]
      | error e => simp [next_uninit_zero, hf, GoodIter]
    | Inflight =>
      have hcb : cb.isSome := h rfl
      obtain ⟨b, rfl⟩ := Option.isSome_iff_exists.mp hcb
      cases hi : b.items with
      | some profiles => simp [next_inflight_zero, hi, GoodIter]
      | none =>
        cases hn : b.next_page with
        | some np =>
          cases hf : f (some np) with
          | ok nb => simp [next_inflight_zero, hi, hn, hf, GoodIter]
          | error e => simp [next_inflight_zero, hi, hn, hf, GoodIter]
        | none => simp [next_inflight_zero, hi, hn, GoodIter]
  | succ fuel ih =>
    intro it h
    obtain ⟨st, cb⟩ := it
    cases st with
    | Done => simp [next_done, GoodIter]
    | Error => simp [next_error_state, GoodIter]
    | Uninitalized =>
      cases hf : f none with
      | ok nb =>
        have hr := ih ⟨SyncIterState.Inflight, some nb⟩ (by intro _; rfl)
        refine ⟨?_, ?_⟩
        · simp only [next_uninit, hf]
          exact hr.1
        · simp only [next_uninit, hf]
          exact hr.2
      | error e => simp [next_uninit, hf, GoodIter]
    | Inflight =>
      have hcb : cb.isSome := h rfl
      obtain ⟨b, rfl⟩ := Option.isSome_iff_exists.mp hcb
      cases hi : b.items with
      | some profiles => simp [next_inflight, hi, GoodIter]
      | none =>
        cases hn : b.next_page with
        | some np =>
          cases hf : f (some np) with
          | ok nb =>
            have hr := ih ⟨SyncIterState.Inflight, some nb⟩ (by intro _; rfl)
            refine ⟨?_, ?_⟩
            · simp only [next_inflight, hi, hn, hf]
              exact hr.1
            · simp only [next_inflight, hi, hn, hf]
              exact hr.2
          | error e => simp [next_inflight, hi, hn, hf, GoodIter]
        | none => simp [next_inflight, hi, hn, GoodIter]

theorem runNexts_goodIter {P E : Type} (f : Option NextPage → Except E (SyncBatch P))
    (fuel : Nat) :
    ∀ (n : Nat) (it : ProfileIter P), GoodIter it →
      some (Except.error IterError.invalidState) ∉ (runNexts f fuel n it).1 ∧
      GoodIter (runNexts f fuel n it).2.1 := by
  intro n
  induction n with
  | zero =>
    intro it h
    refine ⟨?_, ?_⟩
    · simp [runNexts_zero]
    · simpa [runNexts_zero] using h
  | succ n ih =>
    intro it h
    have h1 := next_goodIter f fuel it h
    have h2 := ih (ProfileIter.next f fuel it).2.1 h1.2
    rw [runNexts_succ]
    refine ⟨?_, h2.2⟩
    simp only [List.mem_cons, not_or]
    exact ⟨fun hc => h1.1 hc.symm, h2.1⟩

theorem next_inflight_exhausted {P E : Type}
    (f : Option NextPage → Except E (SyncBatch P)) (fuel : Nat) :
    ProfileIter.next f fuel
        ⟨SyncIterState.Inflight, some ⟨none, none⟩⟩ =
      (none, ⟨SyncIterState.Done, some ⟨none, none⟩⟩, []) := by
  cases fuel with
  | zero => rw [next_inflight_zero]
  | succ fuel => rw [next_inflight]

theorem next_uninit_emptyFirstSync {P E : Type}
    (rest : NextPage → Except E (SyncBatch P)) (fuel : Nat)
    (cb : Option (SyncBatch P)) :
    (ProfileIter.next (emptyFirstSync rest) fuel
        ⟨SyncIterState.Uninitalized, cb⟩).1 = none ∧
    ((ProfileIter.next (emptyFirstSync rest) fuel
        ⟨SyncIterState.Uninitalized, cb⟩).2.1 =
        ⟨SyncIterState.Inflight, some ⟨none, none⟩⟩ ∨
      (ProfileIter.next (emptyFirstSync rest) fuel
        ⟨SyncIterState.Uninitalized, cb⟩).2.1 =
        ⟨SyncIterState.Done, some ⟨none, none⟩⟩) := by
  cases fuel with
  | zero =>
    rw [next_uninit_zero]
    simp [emptyFirstSync]
  | succ fuel =>
    rw [next_uninit]
    simp [emptyFirstSync, next_inflight_exhausted]

theorem runNexts_emptyFirstSync_aux {P E : Type}
    (rest : NextPage → Except E (SyncBatch P)) (fuel : Nat) :
    ∀ (n : Nat) (it : ProfileIter P),
      (it = ⟨SyncIterState.Inflight, some ⟨none, none⟩⟩ ∨
        it = ⟨SyncIterState.Done, some ⟨none, none⟩⟩) →
      (runNexts (emptyFirstSync rest) fuel n it).1 = List.replicate n none := by
  intro n
  induction n with
  | zero => intro it _; simp [runNexts_zero]
  | succ n ih =>
    intro it h
    rw [runNexts_succ]
    cases h with
    | inl h =>
      subst h
      rw [next_inflight_exhausted]
      simpa [List.replicate] using ih _ (Or.inr rfl)
    | inr h =>
      subst h
      rw [next_done]
      simpa [List.replicate] using ih _ (Or.inr rfl)

theorem runNexts_emptyFirstSync {P E : Type}
    (rest : NextPage → Except E (SyncBatch P)) (fuel : Nat) :
    ∀ (n : Nat),
      (runNexts (emptyFirstSync rest) fuel n (ProfileIter.new (P := P))).1 =
        List.replicate n none := by
  intro n
  cases n with
  | zero => simp [runNexts_zero]
  | succ n =>
    rw [runNexts_succ]
    have h1 := next_uninit_emptyFirstSync rest fuel (none : Option (SyncBatch P))
    have hnew : (ProfileIter.new (P := P)) = ⟨SyncIterState.Uninitalized, none⟩ := rfl
    rw [hnew]
    rw [h1.1]
    have h2 := runNexts_emptyFirstSync_aux rest fuel n
      (ProfileIter.next (emptyFirstSync rest) fuel
        ⟨SyncIterState.Uninitalized, none⟩).2.1 h1.2
    simpa [List.replicate] using h2

theorem poll_next_done {P E : Type} (f : Option NextPage → Except E (AsyncBatch P))
    (nx : Option NextPage) :
    AsyncProfileIter.poll_next f ⟨AsyncIterState.Done, nx⟩ =
      (none, ⟨AsyncIterState.Done, nx⟩, []) := rfl

theorem poll_next_inflight_none {P E : Type}
    (f : Option NextPage → Except E (AsyncBatch P)) :
    AsyncProfileIter.poll_next f ⟨AsyncIterState.Inflight, none⟩ =
      (none, ⟨AsyncIterState.Done, none⟩, []) := rfl

theorem asyncRun_emptyFirstAsync_aux {P E : Type}
    (rest : NextPage → Except E (AsyncBatch P)) :
    ∀ (n : Nat) (it : AsyncProfileIter),
      (it = ⟨AsyncIterState.Inflight, none⟩ ∨ it = ⟨AsyncIterState.Done, none⟩) →
      (asyncRun (emptyFirstAsync rest) n it).1 = List.replicate n none := by
  intro n
  induction n with
  | zero => intro it _; simp [asyncRun_zero]
  | succ n ih =>
    intro it h
    rw [asyncRun_succ]
    cases h with
    | inl h =>
      subst h
      rw [poll_next_inflight_none]
      simpa [List.replicate] using ih _ (Or.inr rfl)
    | inr h =>
      subst h
      rw [poll_next_done]
      simpa [List.replicate] using ih _ (Or.inr rfl)

theorem asyncRun_emptyFirstAsync {P E : Type}
    (rest : NextPage → Except E (AsyncBatch P)) :
    ∀ (n : Nat),
      (asyncRun (emptyFirstAsync rest) n AsyncProfileIter.new).1 =
        List.replicate n none := by
  intro n
  cases n with
  | zero => simp [asyncRun_zero]
  | succ n =>
    rw [asyncRun_succ]
    have hstep : AsyncProfileIter.poll_next (emptyFirstAsync rest)
        (AsyncProfileIter.new) =
        (none, ⟨AsyncIterState.Inflight, none⟩, [none]) := by
      simp [AsyncProfileIter.poll_next, AsyncProfileIter.new, emptyFirstAsync]
    rw [hstep]
    simpa [List.replicate] using
      asyncRun_emptyFirstAsync_aux rest n ⟨AsyncIterState.Inflight, none⟩ (Or.inl rfl)

theorem arriveN_refreshing {C : Type} :
    ∀ (k w m : Nat),
      ExpiringCache.arriveN k (⟨CacheState.Refreshing w, m⟩ : ExpiringCache C) =
        ⟨CacheState.Refreshing (w + k), m⟩ := by
  intro k
  induction k with
  | zero => intro w m; simp [ExpiringCache.arriveN]
  | succ k ih =>
    intro w m
    simp only [ExpiringCache.arriveN, ExpiringCache.arrive]
    rw [ih]
    congr 2
    omega

end CisClient

namespace CisClient

/-- C1 — single-flight refresh: for any `k + 1` concurrent `get()` calls
arriving while the shared cache is `Empty`, the underlying fetch is invoked
exactly once (not `k + 1` times), and when the refresh resolves every one of
the `k + 1` callers receives that same fresh credential or that same error. -/
theorem claim_C1_single_flight (C E : Type) (k : Nat) (res : Except E C) :
    (ExpiringCache.arriveN (k + 1)
        (⟨CacheState.Empty, 0⟩ : ExpiringCache C)).fetchCount = 1 ∧
    (ExpiringCache.resolve res
        (ExpiringCache.arriveN (k + 1)
          (⟨CacheState.Empty, 0⟩ : ExpiringCache C))).2 =
      List.replicate (k + 1) res ∧
    ∀ r ∈ (ExpiringCache.resolve res
        (ExpiringCache.arriveN (k + 1)
          (⟨CacheState.Empty, 0⟩ : ExpiringCache C))).2, r = res := by
  have h : ExpiringCache.arriveN (k + 1)
      (⟨CacheState.Empty, 0⟩ : ExpiringCache C) =
      ⟨CacheState.Refreshing (k + 1), 1⟩ := by
    simp only [ExpiringCache.arriveN, ExpiringCache.arrive]
    rw [arriveN_refreshing]
    congr 2
    omega
  rw [h]
  refine ⟨rfl, by simp [ExpiringCache.resolve], ?_⟩
  intro r hr
  simp [ExpiringCache.resolve] at hr
  exact hr

/-- C2 counterexample — the claim promises that the consumer observes the
fetch error; but for the async stream over the three-page listing whose
second page (cursor "2") fails, the two pulls observe one batch and then
plain end-of-stream (`none`): no error value is surfaced (the stream item
type `Vec<Profile>` has no error channel; the failure is logged and mapped
to `None`). -/
theorem claim_C2_counterexample :
    (asyncRun asyncFailSecondPage 2 AsyncProfileIter.new).1 =
      [some [Profile.default], none] := by
  rfl

/-- C3 counterexample — the claim says an initial fetch with zero items and
no cursor yields zero batches; but a sync fetcher whose initial fetch
returns `items: Some(vec![])` (zero items) and no cursor makes the iterator
emit one empty batch before ending. -/
theorem claim_C3_counterexample :
    (runNexts emptySomeSync 2 2 ProfileIter.new).1 =
      [some (.ok []), none] := by
  rfl

/-- C3 amended — an initial fetch reporting the absent item list
(`items: None`, as the sync `get_batch` produces for a non-array `Items`
and as the faker produces for an empty listing) and no cursor yields zero
batches from the sync iterator over any number of pulls, and an initial
fetch with the empty item vector and no cursor yields zero batches from the
async stream; only a sync initial fetch with a present-but-empty item list
emits one empty batch. -/
theorem claim_C3_empty_listing (P E : Type)
    (restS : NextPage → Except E (SyncBatch P))
    (restA : NextPage → Except E (AsyncBatch P)) (fuel n : Nat) :
    (runNexts (emptyFirstSync restS) fuel n (ProfileIter.new (P := P))).1 =
      List.replicate n none ∧
    (asyncRun (emptyFirstAsync restA) n AsyncProfileIter.new).1 =
      List.replicate n none :=
  ⟨runNexts_emptyFirstSync restS fuel n, asyncRun_emptyFirstAsync restA n⟩

/-- C4 — multi-page termination and order: with the reference faker at count
3 (cursor chain "2" → "1" → none), both iterators produce exactly three
batches of size one, in cursor-chain order, and then end; the fetch logs
show the three fetches at no-cursor, "2", "1" in that order. -/
theorem claim_C4_multi_page :
    (runNexts (fakerGetBatch 3) 4 4 ProfileIter.new).1 =
      [some (.ok [Profile.default]), some (.ok [Profile.default]),
       some (.ok [Profile.default]), none] ∧
    (runNexts (fakerGetBatch 3) 4 4 ProfileIter.new).2.2 =
      [none, some ⟨"2"⟩, some ⟨"1"⟩] ∧
    (asyncRun (asyncFakerGetBatch 3) 4 AsyncProfileIter.new).1 =
      [some [Profile.default], some [Profile.default],
       some [Profile.default], none] ∧
    (asyncRun (asyncFakerGetBatch 3) 4 AsyncProfileIter.new).2.2 =
      [none, some ⟨"2"⟩, some ⟨"1"⟩] :=
  ⟨rfl, rfl, rfl, rfl⟩

/-- C5 counterexample — the claim says that after a fetch error no further
fetch is ever issued; but for the async stream whose second page fails, a
third poll issues a third fetch (with the same cursor "2"), as the
three-entry fetch log shows. -/
theorem claim_C5_counterexample :
    (asyncRun asyncFailSecondPage 3 AsyncProfileIter.new).2.2 =
      [none, some ⟨"2"⟩, some ⟨"2"⟩] := by
  rfl

/-- C5 amended — for the sync iterator, `Done` and `Error` are terminal: any
further pull yields no item, issues no fetch, and leaves the iterator
unchanged.  For the async stream, `Done` is terminal in the same way; the
async state machine has no `Failed` state — after a fetch error it remains
`Inflight` with an unchanged cursor, and a further poll re-issues the fetch. -/
theorem claim_C5_terminal_states (P E : Type)
    (f : Option NextPage → Except E (SyncBatch P))
    (g : Option NextPage → Except E (AsyncBatch P))
    (fuel : Nat) (cb : Option (SyncBatch P)) (nx : Option NextPage) :
    ProfileIter.next f fuel ⟨SyncIterState.Done, cb⟩ =
      (none, ⟨SyncIterState.Done, cb⟩, []) ∧
    ProfileIter.next f fuel ⟨SyncIterState.Error, cb⟩ =
      (none, ⟨SyncIterState.Error, cb⟩, []) ∧
    AsyncProfileIter.poll_next g ⟨AsyncIterState.Done, nx⟩ =
      (none, ⟨AsyncIterState.Done, nx⟩, []) :=
  ⟨next_done f fuel cb, next_error_state f fuel cb, poll_next_done g nx⟩

/-- C6 — cursor freshness: in any run of either iterator from a fresh
instance, the fetch log obeys the cursor discipline: the first fetch carries
no cursor, and every later fetch carries exactly the `next_page` cursor of
the immediately preceding successfully fetched batch, passed back verbatim
(after a failed async fetch the unchanged cursor of that same preceding
batch is re-used). -/
theorem claim_C6_cursor_freshness (P E : Type)
    (f : Option NextPage → Except E (SyncBatch P))
    (g : Option NextPage → Except E (AsyncBatch P)) (fuel n : Nat) :
    cursorChain (afterSync f) (some none)
      (runNexts f fuel n (ProfileIter.new (P := P))).2.2 ∧
    cursorChain (afterAsync g) (some none)
      (asyncRun g n AsyncProfileIter.new).2.2 :=
  ⟨(runNexts_syncInv_chain f fuel n ProfileIter.new (some none) rfl).1,
   (asyncRun_asyncInv_chain g n AsyncProfileIter.new (some none) ⟨rfl, rfl⟩).1⟩

/-- C7 — credential validity: `BearerBearer::valid` returns `true` exactly
when the current time is strictly before the credential's expiry
(`exp > now`). -/
theorem claim_C7_valid_iff (b : BearerBearer) (now : Int) :
    b.valid now = true ↔ now < b.exp := by
  simp [BearerBearer.valid]

/-- C8 — token fetch taxonomy: the fetch pipeline yields a credential
exactly when the response carries a string `access_token` whose decoded
payload has an expiry claim; it fails with `NoToken` exactly when the JSON
response lacks a string `access_token` field; and it fails with `NoExpiry`
exactly when a token was obtained and decoded but its payload lacks the
expiry claim. -/
theorem claim_C8_token_errors (D : Type) (decode : String → Except D ClaimsSet)
    (resp : Json) :
    (∀ b, fetchCredential decode resp = .ok b ↔
      ∃ t p e, (resp.index ("access_token")).asStr = some t ∧
        decode t = .ok p ∧ p.expiry = some e ∧ b = ⟨t, e⟩) ∧
    (fetchCredential decode resp = .error .NoToken ↔
      (resp.index ("access_token")).asStr = none) ∧
    (fetchCredential decode resp = .error .NoExpiry ↔
      ∃ t p, (resp.index ("access_token")).asStr = some t ∧
        decode t = .ok p ∧ p.expiry = none) := by
  cases ht : (resp.index ("access_token")).asStr with
  | none =>
    refine ⟨?_, ?_, ?_⟩ <;>
      simp [fetchCredential, get_raw_access_token, ht, Bind.bind, Except.bind]
  | some t =>
    cases hd : decode t with
    | error e =>
      refine ⟨?_, ?_, ?_⟩ <;>
        simp [fetchCredential, get_raw_access_token, get_expiration, ht, hd,
          Bind.bind, Except.bind, Functor.map, Except.map]
    | ok p =>
      cases he : p.expiry with
      | none =>
        refine ⟨?_, ?_, ?_⟩ <;>
          simp [fetchCredential, get_raw_access_token, get_expiration, ht, hd, he,
            Bind.bind, Except.bind, Functor.map, Except.map]
      | some x =>
        refine ⟨?_, ?_, ?_⟩ <;>
          simp [fetchCredential, get_raw_access_token, get_expiration, ht, hd, he,
            Bind.bind, Except.bind, Functor.map, Except.map, BearerBearer.mk.injEq,
            pure, Except.pure, eq_comm]

/-- C9 — listing request construction: at filter "foo" and cursor
`{id:"2"}`, the final query string is ONLY
`nextPage=%7B%22id%22%3A%222%22%7D` — `set_query` replaced the whole query
and dropped the previously appended `filterDisplay` pair — whereas with no
cursor the filter is present, and with no filter the cursor parameter is the
percent-encoded JSON serialization of the cursor.  The claim's "both query
parameters are present" case therefore fails. -/
theorem claim_C9_filter_dropped :
    (get_batch_url ⟨"https://person.api/v2/users", none⟩ (some ("foo"))
        (some ⟨"2"⟩)).query = some ("nextPage=%7B%22id%22%3A%222%22%7D") ∧
    (get_batch_url ⟨"https://person.api/v2/users", none⟩ (some ("foo"))
        none).query = some ("filterDisplay=foo") ∧
    (get_batch_url ⟨"https://person.api/v2/users", none⟩ none
        (some ⟨"2"⟩)).query = some ("nextPage=%7B%22id%22%3A%222%22%7D") :=
  ⟨rfl, rfl, rfl⟩

/-- C10 — the `InvalidState` branch of the sync iterator is unreachable:
for every fetcher, fuel bound and number of pulls, no pull of a freshly
constructed `ProfileIter` ever yields `ProfileIterError::InvalidState`
(whenever the state is `Inflight`, `current_batch` is populated). -/
theorem claim_C10_invalid_state_unreachable (P E : Type)
    (f : Option NextPage → Except E (SyncBatch P)) (fuel n : Nat) :
    some (Except.error IterError.invalidState) ∉
      (runNexts f fuel n (ProfileIter.new (P := P))).1 :=
  (runNexts_goodIter f fuel n ProfileIter.new (by intro h; nomatch h)).1

end CisClient

namespace CisClient

theorem next_inflight_items {P E : Type}
    (f : Option NextPage → Except E (SyncBatch P)) (fuel : Nat) (b : SyncBatch P)
    (items : List P) (hi : b.items = some items) :
    ProfileIter.next f fuel ⟨SyncIterState.Inflight, some b⟩ =
      (some (.ok items), ⟨SyncIterState.Inflight, some ⟨none, b.next_page⟩⟩, []) := by
  cases fuel with
  | zero => rw [next_inflight_zero]; simp [hi]
  | succ fuel => rw [next_inflight]; simp [hi]

theorem next_inflight_fetch_error {P E : Type}
    (f : Option NextPage → Except E (SyncBatch P)) (fuel : Nat) (c : NextPage)
    (e : E) (hf : f (some c) = .error e) :
    ProfileIter.next f fuel ⟨SyncIterState.Inflight, some ⟨none, some c⟩⟩ =
      (some (.error (.client e)), ⟨SyncIterState.Error, some ⟨none, none⟩⟩,
       [some c]) := by
  cases fuel with
  | zero => rw [next_inflight_zero]; simp [hf]
  | succ fuel => rw [next_inflight]; simp [hf]

theorem next_inflight_fetch_ok {P E : Type}
    (f : Option NextPage → Except E (SyncBatch P)) (fuel : Nat) (c : NextPage)
    (items : List P) (nc : Option NextPage)
    (hf : f (some c) = .ok ⟨some items, nc⟩) :
    ProfileIter.next f (fuel + 1) ⟨SyncIterState.Inflight, some ⟨none, some c⟩⟩ =
      (some (.ok items), ⟨SyncIterState.Inflight, some ⟨none, nc⟩⟩, [some c]) := by
  rw [next_inflight]
  simp [hf, next_inflight_items f fuel ⟨some items, nc⟩ items rfl]

theorem runNexts_error_state {P E : Type}
    (f : Option NextPage → Except E (SyncBatch P)) (fuel : Nat) :
    ∀ (m : Nat) (cb : Option (SyncBatch P)),
      runNexts f fuel m ⟨SyncIterState.Error, cb⟩ =
        (List.replicate m none, ⟨SyncIterState.Error, cb⟩, []) := by
  intro m
  induction m with
  | zero => intro cb; rw [runNexts_zero]; simp
  | succ m ih =>
    intro cb
    rw [runNexts_succ, next_error_state]
    simp [ih, List.replicate]

theorem runNexts_servesThenFails_loop {P E : Type}
    (f : Option NextPage → Except E (SyncBatch P)) (e : E) (fuel m : Nat) :
    ∀ (ps : List (List P × NextPage)) (c : NextPage),
      servesThenFails f e (some c) ps →
      (runNexts f (fuel + 1) (ps.length + m + 1)
          ⟨SyncIterState.Inflight, some ⟨none, some c⟩⟩).1 =
        ps.map (fun p => some (Except.ok p.1)) ++
          some (Except.error (IterError.client e)) :: List.replicate m none ∧
      (runNexts f (fuel + 1) (ps.length + m + 1)
          ⟨SyncIterState.Inflight, some ⟨none, some c⟩⟩).2.2 =
        some c :: ps.map (fun p => some p.2) := by
  intro ps
  induction ps with
  | nil =>
    intro c h
    have hstep := next_inflight_fetch_error f (fuel + 1) c e h
    constructor
    · rw [runNexts_succ, hstep]
      simp [runNexts_error_state]
    · rw [runNexts_succ, hstep]
      simp [runNexts_error_state]
  | cons p rest ih =>
    obtain ⟨items, c1⟩ := p
    intro c h
    obtain ⟨h1, hrest⟩ := h
    have hstep := next_inflight_fetch_ok f fuel c items (some c1) h1
    have harith : ((items, c1) :: rest : List (List P × NextPage)).length + m =
        rest.length + m + 1 := by
      simp [List.length_cons]
      omega
    have hloop := ih c1 hrest
    constructor
    · rw [runNexts_succ, hstep, harith, hloop.1]
      simp
    · rw [runNexts_succ, hstep, harith, hloop.2]
      simp

theorem runNexts_servesThenFails {P E : Type}
    (f : Option NextPage → Except E (SyncBatch P)) (e : E) (fuel m : Nat)
    (ps : List (List P × NextPage)) (h : servesThenFails f e none ps) :
    (runNexts f (fuel + 1) (ps.length + m + 1) (ProfileIter.new (P := P))).1 =
      ps.map (fun p => some (Except.ok p.1)) ++
        some (Except.error (IterError.client e)) :: List.replicate m none ∧
    (runNexts f (fuel + 1) (ps.length + m + 1) (ProfileIter.new (P := P))).2.2 =
      none :: ps.map (fun p => some p.2) := by
  have hnew : (ProfileIter.new (P := P)) =
      ⟨SyncIterState.Uninitalized, none⟩ := rfl
  cases ps with
  | nil =>
    have hstep : ProfileIter.next f (fuel + 1)
        ⟨SyncIterState.Uninitalized, none⟩ =
        (some (.error (.client e)), ⟨SyncIterState.Error, none⟩, [none]) := by
      have h0 : f none = .error e := h
      rw [next_uninit]
      simp [h0]
    constructor
    · rw [hnew, runNexts_succ, hstep]
      simp [runNexts_error_state]
    · rw [hnew, runNexts_succ, hstep]
      simp [runNexts_error_state]
  | cons p rest =>
    obtain ⟨items, c1⟩ := p
    obtain ⟨h1, hrest⟩ := h
    have hstep : ProfileIter.next f (fuel + 1)
        ⟨SyncIterState.Uninitalized, none⟩ =
        (some (.ok items), ⟨SyncIterState.Inflight, some ⟨none, some c1⟩⟩,
         [none]) := by
      rw [next_uninit]
      simp [h1, next_inflight_items f fuel ⟨some items, some c1⟩ items rfl]
    have harith : ((items, c1) :: rest : List (List P × NextPage)).length + m =
        rest.length + m + 1 := by
      simp [List.length_cons]
      omega
    have hloop := runNexts_servesThenFails_loop f e fuel m rest c1 hrest
    constructor
    · rw [hnew, runNexts_succ, hstep, harith, hloop.1]
      simp
    · rw [hnew, runNexts_succ, hstep, harith, hloop.2]
      simp

theorem asyncRun_servesThenFails_loop {P E : Type}
    (g : Option NextPage → Except E (AsyncBatch P)) (e : E) :
    ∀ (qs : List (List P × NextPage)) (c : NextPage),
      asyncServesThenFails g e (some c) qs →
      (asyncRun g (qs.length + 1) ⟨AsyncIterState.Inflight, some c⟩).1 =
        qs.map (fun p => some p.1) ++ [none] ∧
      (asyncRun g (qs.length + 1) ⟨AsyncIterState.Inflight, some c⟩).2.2 =
        some c :: qs.map (fun p => some p.2) := by
  intro qs
  induction qs with
  | nil =>
    intro c h
    have hstep : AsyncProfileIter.poll_next g ⟨AsyncIterState.Inflight, some c⟩ =
        (none, ⟨AsyncIterState.Inflight, some c⟩, [some c]) := by
      have h0 : g (some c) = .error e := h
      simp [AsyncProfileIter.poll_next, h0]
    constructor
    · rw [asyncRun_succ, hstep]
      simp [asyncRun_zero]
    · rw [asyncRun_succ, hstep]
      simp [asyncRun_zero]
  | cons q rest ih =>
    obtain ⟨items, nc⟩ := q
    intro c h
    obtain ⟨h1, hrest⟩ := h
    have hstep : AsyncProfileIter.poll_next g ⟨AsyncIterState.Inflight, some c⟩ =
        (some items, ⟨AsyncIterState.Inflight, some nc⟩, [some c]) := by
      simp [AsyncProfileIter.poll_next, h1]
    have hloop := ih nc hrest
    constructor
    · rw [asyncRun_succ, hstep]
      simp only [List.length_cons]
      rw [hloop.1]
      simp
    · rw [asyncRun_succ, hstep]
      simp only [List.length_cons]
      rw [hloop.2]
      simp

theorem asyncRun_servesThenFails {P E : Type}
    (g : Option NextPage → Except E (AsyncBatch P)) (e : E)
    (qs : List (List P × NextPage)) (h : asyncServesThenFails g e none qs) :
    (asyncRun g (qs.length + 1) AsyncProfileIter.new).1 =
      qs.map (fun p => some p.1) ++ [none] ∧
    (asyncRun g (qs.length + 1) AsyncProfileIter.new).2.2 =
      none :: qs.map (fun p => some p.2) := by
  have hnew : AsyncProfileIter.new =
      ⟨AsyncIterState.Uninitalized, none⟩ := rfl
  cases qs with
  | nil =>
    have hstep : AsyncProfileIter.poll_next g
        ⟨AsyncIterState.Uninitalized, none⟩ =
        (none, ⟨AsyncIterState.Inflight, none⟩, [none]) := by
      have h0 : g none = .error e := h
      simp [AsyncProfileIter.poll_next, h0]
    constructor
    · rw [hnew, asyncRun_succ, hstep]
      simp [asyncRun_zero]
    · rw [hnew, asyncRun_succ, hstep]
      simp [asyncRun_zero]
  | cons q rest =>
    obtain ⟨items, c1⟩ := q
    obtain ⟨h1, hrest⟩ := h
    have hstep : AsyncProfileIter.poll_next g
        ⟨AsyncIterState.Uninitalized, none⟩ =
        (some items, ⟨AsyncIterState.Inflight, some c1⟩, [none]) := by
      simp [AsyncProfileIter.poll_next, h1]
    have hloop := asyncRun_servesThenFails_loop g e rest c1 hrest
    constructor
    · rw [hnew, asyncRun_succ, hstep]
      simp only [List.length_cons]
      rw [hloop.1]
      simp
    · rw [hnew, asyncRun_succ, hstep]
      simp only [List.length_cons]
      rw [hloop.2]
      simp

/-- C2 amended — for EVERY paged listing whose fetch fails after its
successful pages (an arbitrary chain `ps` of item lists and handed-back
cursors, then a failure): the sync iterator's consumer observes exactly the
`ps.length` already-emitted batches in order, then the fetch error surfaced
once, then only end-of-iteration over any number `m` of further pulls, and
the fetch log is exactly the cursorless fetch followed by the chain's
cursors — the failing fetch is the last fetch ever issued.  The async
stream's consumer observes the `qs.length` batches followed by plain
end-of-stream: the error is logged and swallowed, never surfaced (the item
type has no error channel), and over those pulls the failing fetch is
likewise the last one issued. -/
theorem claim_C2_error_propagation (P E : Type)
    (f : Option NextPage → Except E (SyncBatch P))
    (g : Option NextPage → Except E (AsyncBatch P)) (e e' : E)
    (ps qs : List (List P × NextPage)) (m fuel : Nat)
    (hf : servesThenFails f e none ps)
    (hg : asyncServesThenFails g e' none qs) :
    ((runNexts f (fuel + 1) (ps.length + m + 1) (ProfileIter.new (P := P))).1 =
       ps.map (fun p => some (Except.ok p.1)) ++
         some (Except.error (IterError.client e)) :: List.replicate m none) ∧
    ((runNexts f (fuel + 1) (ps.length + m + 1) (ProfileIter.new (P := P))).2.2 =
       none :: ps.map (fun p => some p.2)) ∧
    ((asyncRun g (qs.length + 1) AsyncProfileIter.new).1 =
       qs.map (fun p => some p.1) ++ [none]) ∧
    ((asyncRun g (qs.length + 1) AsyncProfileIter.new).2.2 =
       none :: qs.map (fun p => some p.2)) :=
  ⟨(runNexts_servesThenFails f e fuel m ps hf).1,
   (runNexts_servesThenFails f e fuel m ps hf).2,
   (asyncRun_servesThenFails g e' qs hg).1,
   (asyncRun_servesThenFails g e' qs hg).2⟩

/-- C2 witness — the amended theorem applied to the concrete three-page
listing whose second page (cursor "2") fails: the sync iterator yields one
batch, the error, then nothing, with fetch log `[none, "2"]`; the async
stream yields one batch then end-of-stream with the same fetch log. -/
theorem claim_C2_error_propagation_witness :
    (runNexts failSecondPage 4 3 ProfileIter.new).1 =
      [some (.ok [Profile.default]),
       some (.error (.client FetchErr.network)), none] ∧
    (runNexts failSecondPage 4 3 ProfileIter.new).2.2 =
      [none, some ⟨"2"⟩] ∧
    (asyncRun asyncFailSecondPage 2 AsyncProfileIter.new).1 =
      [some [Profile.default], none] ∧
    (asyncRun asyncFailSecondPage 2 AsyncProfileIter.new).2.2 =
      [none, some ⟨"2"⟩] := by
  have h := claim_C2_error_propagation Profile FetchErr failSecondPage
    asyncFailSecondPage FetchErr.network FetchErr.network
    [([Profile.default], ⟨"2"⟩)] [([Profile.default], ⟨"2"⟩)] 1 3
    ⟨rfl, rfl⟩ ⟨rfl, rfl⟩
  simpa using h

end CisClient
